import Mathlib

/-!
Verification of the eq_layer audio equalizer core.

This file gives a shallow embedding of the equalizer profile parser
(src/eq.rs), the biquad coefficient engine and the vectorized filter
execution engine (src/eq.rs), and the audio pipeline's poll loop and
playback callback (src/run.rs), and proves the spec claims about them.

Modelling conventions:
* Rust f64 values produced by the parser are modelled as exact rationals.
* Rust f32 DSP arithmetic is modelled as ideal real arithmetic.
* Rust strings are modelled as Lean strings, with the handful of std
  string methods the parser uses re-implemented over character lists so
  that everything reduces by kernel computation.
* Fallible Rust functions returning Result are modelled with Except.
-/

namespace EqLayer

/-! ## Models of the Rust std string primitives used by the parser -/

/-- Model of Rust str::starts_with for a string pattern. -/
def charsStartWith : List Char → List Char → Bool
  | _, [] => true
  | [], _ :: _ => false
  | c :: cs, p :: ps => c = p && charsStartWith cs ps

/-- Model of Rust str::starts_with. -/
def rustStartsWith (s pat : String) : Bool :=
  charsStartWith s.toList pat.toList

/-- Model of Rust str::to_uppercase (the parser only feeds it ASCII). -/
def rustToUpper (s : String) : String :=
  String.mk (s.toList.map Char.toUpper)

/-- Model of Rust str::trim: drop leading and trailing whitespace. -/
def rustTrim (s : String) : String :=
  String.mk (((s.toList.dropWhile Char.isWhitespace).reverse.dropWhile
    Char.isWhitespace).reverse)

/-- Accumulator worker for splitting at whitespace, dropping empty chunks. -/
def splitWsAux : List Char → List Char → List (List Char)
  | [], acc => if acc = [] then [] else [acc.reverse]
  | c :: rest, acc =>
    if c.isWhitespace then
      if acc = [] then splitWsAux rest []
      else acc.reverse :: splitWsAux rest []
    else splitWsAux rest (c :: acc)

/-- Model of Rust str::split_whitespace collected into a Vec. -/
def rustSplitWhitespace (s : String) : List String :=
  (splitWsAux s.toList []).map String.mk

/-- Accumulator worker splitting a character list at newline characters. -/
def splitLinesAux : List Char → List Char → List (List Char)
  | [], acc => [acc.reverse]
  | c :: rest, acc =>
    if c = '\n' then acc.reverse :: splitLinesAux rest []
    else splitLinesAux rest (c :: acc)

/-- Drop one trailing carriage return, as Rust str::lines does per line. -/
def stripTrailingCR (l : List Char) : List Char :=
  if l.getLast? = some '\r' then l.dropLast else l

/-- Model of Rust str::lines: split at newlines; a trailing newline does
not produce a final empty line; a trailing carriage return is stripped. -/
def rustLines (s : String) : List String :=
  if s.toList = [] then []
  else
    let segs := splitLinesAux s.toList []
    let segs := if s.toList.getLast? = some '\n' then segs.dropLast else segs
    segs.map (fun l => String.mk (stripTrailingCR l))

/-- Decimal digit test. -/
def isDigitChar (c : Char) : Bool :=
  '0' ≤ c && c ≤ '9'

/-- Numeric value of a list of decimal digit characters. -/
def digitsVal (l : List Char) : ℕ :=
  l.foldl (fun a c => a * 10 + (c.toNat - '0'.toNat)) 0

/-- Split a character list at the first character satisfying p: the part
before it, and (when found) the part after it. -/
def splitAtFirst (p : Char → Bool) : List Char → List Char × Option (List Char)
  | [] => ([], none)
  | c :: rest =>
    if p c then ([], some rest)
    else
      let r := splitAtFirst p rest
      (c :: r.1, r.2)

/-- Model of Rust f64::from_str restricted to finite decimal literals
(optional sign, digits with an optional fractional part, optional decimal
exponent), giving the exact rational value; the inf and NaN spellings of
the Rust grammar are omitted, as they have no rational counterpart and
never occur in the inputs considered here. -/
def parseFloat (s : String) : Option ℚ :=
  let cs := s.toList
  let sgn : ℚ := match cs with
    | '-' :: _ => -1
    | _ => 1
  let cs := match cs with
    | '+' :: t => t
    | '-' :: t => t
    | l => l
  let mant := splitAtFirst (fun c => c = 'e' || c = 'E') cs
  let ip := (splitAtFirst (fun c => c = '.') mant.1).1
  let fp := ((splitAtFirst (fun c => c = '.') mant.1).2).getD []
  if ip.all isDigitChar && fp.all isDigitChar && (ip ≠ [] || fp ≠ []) then
    let base : ℚ := (digitsVal ip : ℚ) + (digitsVal fp : ℚ) / (10 : ℚ) ^ fp.length
    match mant.2 with
    | none => some (sgn * base)
    | some ecs =>
      let esgn : ℤ := match ecs with
        | '-' :: _ => -1
        | _ => 1
      let eds := match ecs with
        | '+' :: t => t
        | '-' :: t => t
        | l => l
      if eds ≠ [] && eds.all isDigitChar then
        some (sgn * base * (10 : ℚ) ^ (esgn * (digitsVal eds : ℤ)))
      else none
  else none

/-! ## Data model and parser of src/eq.rs -/

/-- Equalizer APO FilterType (src/eq.rs). -/
inductive FilterType where
  | Peaking
  | LowShelf
  | HighShelf
  | LowPass
  | HighPass
deriving DecidableEq, Repr

/-- Parse errors of the profile parser (src/eq.rs). -/
inductive EqParseError where
  | ParseFloatError
  | UnknownFilterType (raw : String)
deriving DecidableEq, Repr

/-- One parametric band (src/eq.rs struct Filter); f64 fields modelled
as exact rationals. -/
structure Filter where
  enabled : Bool
  filter_type : FilterType
  frequency : ℚ
  gain : ℚ
  q_factor : ℚ
  bandwidth : Option ℚ
deriving DecidableEq, Repr

/-- Default band values (impl Default for Filter in src/eq.rs). -/
def Filter.defaultVal : Filter :=
  { enabled := true
    filter_type := FilterType.Peaking
    frequency := 1000
    gain := 0
    q_factor := 707 / 1000
    bandwidth := none }

/-- A profile: preamp plus ordered band list (src/eq.rs struct EqProfile). -/
structure EqProfile where
  preamp_db : ℚ
  filters : List Filter
deriving DecidableEq, Repr

/-- Default profile (derived Default in src/eq.rs: 0.0 preamp, no bands). -/
def EqProfile.defaultVal : EqProfile :=
  { preamp_db := 0, filters := [] }

/-- FilterType::from_str (src/eq.rs): match the uppercased token against
the recognized vocabulary, otherwise an UnknownFilterType error carrying
the original token. -/
def FilterType.from_str (s : String) : Except EqParseError FilterType :=
  match rustToUpper s with
  | "PK" | "PEAK" => .ok FilterType.Peaking
  | "LSC" | "LOWSHELF" => .ok FilterType.LowShelf
  | "HSC" | "HIGHSHELF" => .ok FilterType.HighShelf
  | "LP" | "LOWPASS" => .ok FilterType.LowPass
  | "HP" | "HIGHPASS" => .ok FilterType.HighPass
  | _ => .error (.UnknownFilterType s)

/-- The token-scanning loop of parse_filter_line (src/eq.rs): keyword
tokens consume an optional numeric successor token; any other token is
handed to FilterType::from_str, whose error aborts the scan via the Rust
question-mark operator. -/
def parseFilterTokens : List String → Filter → Except EqParseError Filter
  | [], f => .ok f
  | t :: rest, f =>
    match rustToUpper t with
    | "ON" => parseFilterTokens rest { f with enabled := true }
    | "OFF" => parseFilterTokens rest { f with enabled := false }
    | "FC" =>
      match rest with
      | [] => parseFilterTokens [] f
      | v :: rest2 =>
        match parseFloat v with
        | some x => parseFilterTokens rest2 { f with frequency := x }
        | none => .error .ParseFloatError
    | "GAIN" =>
      match rest with
      | [] => parseFilterTokens [] f
      | v :: rest2 =>
        match parseFloat v with
        | some x => parseFilterTokens rest2 { f with gain := x }
        | none => .error .ParseFloatError
    | "Q" =>
      match rest with
      | [] => parseFilterTokens [] f
      | v :: rest2 =>
        match parseFloat v with
        | some x => parseFilterTokens rest2 { f with q_factor := x }
        | none => .error .ParseFloatError
    | "BW" =>
      match rest with
      | [] => parseFilterTokens [] f
      | v :: rest2 =>
        match parseFloat v with
        | some x => parseFilterTokens rest2 { f with bandwidth := some x }
        | none => .error .ParseFloatError
    | _ =>
      match FilterType.from_str t with
      | .ok ft => parseFilterTokens rest { f with filter_type := ft }
      | .error e => .error e

/-- parse_filter_line (src/eq.rs): split the line at whitespace and scan
the tokens over a default-initialized Filter. -/
def parse_filter_line (line : String) : Except EqParseError Filter :=
  parseFilterTokens (rustSplitWhitespace line) Filter.defaultVal

/-- One iteration of the line loop of EqProfile::from_str (src/eq.rs):
trim, skip blanks and comments, handle PREAMP: lines, hand FILTER lines
to parse_filter_line, ignore anything else.  (On a PREAMP: line whose
first token lacks a trailing colon and which has exactly two tokens, the
Rust code indexes parts[2] out of bounds and panics; that spot is modelled
as reading an empty token, which fails float parsing — it is unreachable
for the inputs considered in this development.) -/
def processLine (profile : EqProfile) (rawLine : String) :
    Except EqParseError EqProfile :=
  let line := rustTrim rawLine
  if line.toList = [] || line.toList.head? = some '#' then .ok profile
  else if rustStartsWith (rustToUpper line) "PREAMP:" then
    let parts := rustSplitWhitespace line
    if 2 ≤ parts.length then
      let val_str :=
        if (parts.getD 0 "").toList.getLast? = some ':' then parts.getD 1 ""
        else parts.getD 2 ""
      match parseFloat val_str with
      | some v => .ok { profile with preamp_db := v }
      | none => .error .ParseFloatError
    else .ok profile
  else if rustStartsWith (rustToUpper line) "FILTER" then
    match parse_filter_line line with
    | .ok f => .ok { profile with filters := profile.filters ++ [f] }
    | .error e => .error e
  else .ok profile

/-- The line loop of EqProfile::from_str, short-circuiting on the first
error exactly as the Rust question-mark operator does. -/
def fromStrGo : EqProfile → List String → Except EqParseError EqProfile
  | p, [] => .ok p
  | p, l :: ls =>
    match processLine p l with
    | .ok p2 => fromStrGo p2 ls
    | .error e => .error e

/-- EqProfile::from_str (src/eq.rs): fold the line handler over the lines
of the input, starting from the default profile. -/
def EqProfile.from_str (s : String) : Except EqParseError EqProfile :=
  fromStrGo EqProfile.defaultVal (rustLines s)

/-! ## Biquad coefficient engine of src/eq.rs (f32 arithmetic modelled
as ideal real arithmetic) -/

/-- Normalized biquad coefficients (src/eq.rs struct BiquadCoeffs). -/
structure BiquadCoeffs where
  b0 : ℝ
  b1 : ℝ
  b2 : ℝ
  a1 : ℝ
  a2 : ℝ

/-- BiquadCoeffs::calculate (src/eq.rs): RBJ Audio EQ Cookbook raw
coefficients for the requested filter type, then all five stored
coefficients multiplied by the reciprocal of the raw a0. -/
noncomputable def BiquadCoeffs.calculate (filter_type : FilterType)
    (freq q gain_db sample_rate : ℝ) : BiquadCoeffs :=
  let omega := 2 * Real.pi * freq / sample_rate
  let sin_w := Real.sin omega
  let cos_w := Real.cos omega
  let alpha := sin_w / (2 * q)
  let a := Real.rpow 10 (gain_db / 40)
  let raw : ℝ × ℝ × ℝ × ℝ × ℝ × ℝ :=
    match filter_type with
    | FilterType.Peaking =>
      (1 + alpha * a, -2 * cos_w, 1 - alpha * a,
       1 + alpha / a, -2 * cos_w, 1 - alpha / a)
    | FilterType.LowShelf =>
      let a_plus_1 := a + 1
      let a_minus_1 := a - 1
      let beta := 2 * Real.sqrt a * alpha
      (a * (a_plus_1 - a_minus_1 * cos_w + beta),
       2 * a * (a_minus_1 - a_plus_1 * cos_w),
       a * (a_plus_1 - a_minus_1 * cos_w - beta),
       a_plus_1 + a_minus_1 * cos_w + beta,
       -2 * (a_minus_1 + a_plus_1 * cos_w),
       a_plus_1 + a_minus_1 * cos_w - beta)
    | FilterType.HighShelf =>
      let a_plus_1 := a + 1
      let a_minus_1 := a - 1
      let beta := 2 * Real.sqrt a * alpha
      (a * (a_plus_1 + a_minus_1 * cos_w + beta),
       -2 * a * (a_minus_1 + a_plus_1 * cos_w),
       a * (a_plus_1 + a_minus_1 * cos_w - beta),
       a_plus_1 - a_minus_1 * cos_w + beta,
       2 * (a_minus_1 - a_plus_1 * cos_w),
       a_plus_1 - a_minus_1 * cos_w - beta)
    | FilterType.LowPass =>
      ((1 - cos_w) / 2, 1 - cos_w, (1 - cos_w) / 2,
       1 + alpha, -2 * cos_w, 1 - alpha)
    | FilterType.HighPass =>
      ((1 + cos_w) / 2, -(1 + cos_w), (1 + cos_w) / 2,
       1 + alpha, -2 * cos_w, 1 - alpha)
  match raw with
  | (b0, b1, b2, a0, a1, a2) =>
    let inv_a0 := 1 / a0
    { b0 := b0 * inv_a0
      b1 := b1 * inv_a0
      b2 := b2 * inv_a0
      a1 := a1 * inv_a0
      a2 := a2 * inv_a0 }

/-! ## Vectorized execution engine of src/eq.rs -/

/-- Model of the aarch64 float32x4_t vector: four independent lanes. -/
structure Float32x4 where
  lane0 : ℝ
  lane1 : ℝ
  lane2 : ℝ
  lane3 : ℝ

/-- Lane accessor, indexing the four lanes of a vector. -/
def Float32x4.lane (v : Float32x4) : Fin 4 → ℝ
  | 0 => v.lane0
  | 1 => v.lane1
  | 2 => v.lane2
  | 3 => v.lane3

/-- vdupq_n_f32: broadcast one scalar to all four lanes. -/
def vdupq_n_f32 (v : ℝ) : Float32x4 :=
  ⟨v, v, v, v⟩

/-- vmulq_f32: lane-wise product. -/
def vmulq_f32 (a b : Float32x4) : Float32x4 :=
  ⟨a.lane0 * b.lane0, a.lane1 * b.lane1, a.lane2 * b.lane2, a.lane3 * b.lane3⟩

/-- vfmaq_f32 a b c: lane-wise a + b * c. -/
def vfmaq_f32 (a b c : Float32x4) : Float32x4 :=
  ⟨a.lane0 + b.lane0 * c.lane0, a.lane1 + b.lane1 * c.lane1,
   a.lane2 + b.lane2 * c.lane2, a.lane3 + b.lane3 * c.lane3⟩

/-- vfmsq_f32 a b c: lane-wise a - b * c. -/
def vfmsq_f32 (a b c : Float32x4) : Float32x4 :=
  ⟨a.lane0 - b.lane0 * c.lane0, a.lane1 - b.lane1 * c.lane1,
   a.lane2 - b.lane2 * c.lane2, a.lane3 - b.lane3 * c.lane3⟩

/-- The SIMD biquad filter node (src/eq.rs struct SimdBiquad):
broadcast coefficients plus per-lane two-sample input/output history. -/
structure SimdBiquad where
  b0 : Float32x4
  b1 : Float32x4
  b2 : Float32x4
  a1 : Float32x4
  a2 : Float32x4
  x1 : Float32x4
  x2 : Float32x4
  y1 : Float32x4
  y2 : Float32x4

/-- SimdBiquad::new (src/eq.rs): splat the coefficients, zero history. -/
def SimdBiquad.new (coeffs : BiquadCoeffs) : SimdBiquad :=
  { b0 := vdupq_n_f32 coeffs.b0
    b1 := vdupq_n_f32 coeffs.b1
    b2 := vdupq_n_f32 coeffs.b2
    a1 := vdupq_n_f32 coeffs.a1
    a2 := vdupq_n_f32 coeffs.a2
    x1 := vdupq_n_f32 0
    x2 := vdupq_n_f32 0
    y1 := vdupq_n_f32 0
    y2 := vdupq_n_f32 0 }

/-- SimdBiquad::update_coeffs (src/eq.rs): overwrite the five broadcast
coefficient vectors, leaving the four history vectors untouched. -/
def SimdBiquad.update_coeffs (s : SimdBiquad) (coeffs : BiquadCoeffs) :
    SimdBiquad :=
  { s with
    b0 := vdupq_n_f32 coeffs.b0
    b1 := vdupq_n_f32 coeffs.b1
    b2 := vdupq_n_f32 coeffs.b2
    a1 := vdupq_n_f32 coeffs.a1
    a2 := vdupq_n_f32 coeffs.a2 }

/-- SimdBiquad::process_quad (src/eq.rs): Direct Form I difference
equation on each lane, then shift each lane's history; returns the output
quad and the updated state (Rust mutates in place). -/
def SimdBiquad.process_quad (s : SimdBiquad) (input : Float32x4) :
    Float32x4 × SimdBiquad :=
  let acc := vmulq_f32 s.b0 input
  let acc := vfmaq_f32 acc s.b1 s.x1
  let acc := vfmaq_f32 acc s.b2 s.x2
  let acc := vfmsq_f32 acc s.a1 s.y1
  let acc := vfmsq_f32 acc s.a2 s.y2
  (acc, { s with x2 := s.x1, x1 := input, y2 := s.y1, y1 := acc })

/-- Feeding a sequence of quads through one SimdBiquad, threading its
state (repeated process_quad calls). -/
def simdRun : SimdBiquad → List Float32x4 → List Float32x4 × SimdBiquad
  | b, [] => ([], b)
  | b, q :: qs =>
    let p := b.process_quad q
    let r := simdRun p.2 qs
    (p.1 :: r.1, r.2)

/-- The inner band loop of ParametricEq::process_buffer: one quad passed
through the whole cascade, threading every band's state. -/
def processQuadCascade : List SimdBiquad → Float32x4 →
    Float32x4 × List SimdBiquad
  | [], q => (q, [])
  | b :: bs, q =>
    let p := b.process_quad q
    let r := processQuadCascade bs p.1
    (r.1, p.2 :: r.2)

/-- The chunk loop of ParametricEq::process_buffer (src/eq.rs): the
leading groups of four samples are each run through the cascade and
written back; any trailing samples beyond the last full group are outside
the loop bounds (chunks = len / 4) and are returned as they were. -/
def processChunks : List SimdBiquad → List ℝ → List ℝ × List SimdBiquad
  | bs, x0 :: x1 :: x2 :: x3 :: rest =>
    let p := processQuadCascade bs ⟨x0, x1, x2, x3⟩
    let r := processChunks p.2 rest
    (p.1.lane0 :: p.1.lane1 :: p.1.lane2 :: p.1.lane3 :: r.1, r.2)
  | bs, rest => (rest, bs)

/-- The main equalizer engine (src/eq.rs struct ParametricEq). -/
structure ParametricEq where
  sample_rate : ℝ
  bands : List SimdBiquad

/-- ParametricEq::new (src/eq.rs): no bands yet. -/
def ParametricEq.new (sample_rate : ℝ) : ParametricEq :=
  { sample_rate := sample_rate, bands := [] }

/-- ParametricEq::add_band (src/eq.rs): compute coefficients at the
engine's sample rate and push a fresh band (aarch64 path). -/
noncomputable def ParametricEq.add_band (eq : ParametricEq)
    (filter_type : FilterType) (freq q gain_db : ℝ) : ParametricEq :=
  { eq with
    bands := eq.bands ++
      [SimdBiquad.new
        (BiquadCoeffs.calculate filter_type freq q gain_db eq.sample_rate)] }

/-- ParametricEq::from_profile (src/eq.rs): add_band for every filter of
the profile, in order; f64 band fields are cast to the f32 engine type
(modelled as a rational-to-real cast). -/
noncomputable def ParametricEq.from_profile (profile : EqProfile)
    (sample_rate : ℝ) : ParametricEq :=
  profile.filters.foldl
    (fun acc band =>
      acc.add_band band.filter_type (band.frequency : ℝ) (band.q_factor : ℝ)
        (band.gain : ℝ))
    (ParametricEq.new sample_rate)

/-- ParametricEq::update_band (src/eq.rs): when the index is in range,
recompute the coefficients and overwrite only that band's coefficient
vectors in place; otherwise do nothing. -/
noncomputable def ParametricEq.update_band (eq : ParametricEq) (index : ℕ)
    (filter_type : FilterType) (freq q gain_db : ℝ) : ParametricEq :=
  match eq.bands.get? index with
  | some band =>
    { eq with
      bands := eq.bands.set index
        (band.update_coeffs
          (BiquadCoeffs.calculate filter_type freq q gain_db eq.sample_rate)) }
  | none => eq

/-- ParametricEq::process_buffer (src/eq.rs): run the chunk loop over the
buffer (Rust mutates the slice and the band states in place; the model
returns both). -/
def ParametricEq.process_buffer (eq : ParametricEq) (data : List ℝ) :
    List ℝ × ParametricEq :=
  let r := processChunks eq.bands data
  (r.1, { eq with bands := r.2 })

/-! ## Scalar reference semantics (refinement side of the claims)

The scalar difference-equation engine is the reference the spec compares
the vectorized engine against; it follows the canonical second-order
difference equation stated both in the spec and in the process_quad doc
comment of src/eq.rs. -/

/-- Two-sample scalar filter history. -/
structure BiquadState where
  x1 : ℝ
  x2 : ℝ
  y1 : ℝ
  y2 : ℝ

/-- Modelled from the spec: one step of the scalar difference equation
y = b0*x + b1*x1 + b2*x2 - a1*y1 - a2*y2 with history shift (the scalar
engine referenced by the spec; its Rust source is not under src/). -/
def scalarStep (c : BiquadCoeffs) (st : BiquadState) (x : ℝ) :
    ℝ × BiquadState :=
  let y := c.b0 * x + c.b1 * st.x1 + c.b2 * st.x2 - c.a1 * st.y1 - c.a2 * st.y2
  (y, { x1 := x, x2 := st.x1, y1 := y, y2 := st.y1 })

/-- Scalar filtering of a sample sequence, threading the history. -/
def scalarRun : BiquadCoeffs → BiquadState → List ℝ → List ℝ × BiquadState
  | _, st, [] => ([], st)
  | c, st, x :: xs =>
    let p := scalarStep c st x
    let r := scalarRun c p.2 xs
    (p.1 :: r.1, r.2)

/-- A SimdBiquad all of whose lanes carry the same coefficients and the
same scalar history (the uniform-lane invariant used for the
vectorized/scalar equivalence). -/
def splatBiquad (c : BiquadCoeffs) (st : BiquadState) : SimdBiquad :=
  { b0 := vdupq_n_f32 c.b0
    b1 := vdupq_n_f32 c.b1
    b2 := vdupq_n_f32 c.b2
    a1 := vdupq_n_f32 c.a1
    a2 := vdupq_n_f32 c.a2
    x1 := vdupq_n_f32 st.x1
    x2 := vdupq_n_f32 st.x2
    y1 := vdupq_n_f32 st.y1
    y2 := vdupq_n_f32 st.y2 }

/-! ## Models of the pipeline pieces of src/run.rs -/

/-- The poll loop at the end of run (src/run.rs): the loop body sleeps one
poll interval and then reads the shared instance_id counter; reads lists
the successive values observed at the poll ticks.  The result is the index
of the tick at which the loop breaks (after which run returns Ok), or none
when every observed read still equals the tag and the loop is still
running. -/
def pollLoop (tag : ℕ) : List ℕ → Option ℕ
  | [] => none
  | r :: rs =>
    if r = tag then Option.map (· + 1) (pollLoop tag rs)
    else some 0

/-- The playback callback output_data_fn of run (src/run.rs): the enable
flag is loaded once per callback; then, for each of the n output slots in
order, one sample is popped from the ring buffer (modelled as the list of
samples currently queued, popped from the front): on success the sample is
written through the equalizer when the flag is set and unmodified
otherwise, and on underflow silence is written.  Returns the written
output, the final equalizer state and the samples left in the buffer. -/
def outputDataFn {E : Type} (eqEnabled : Bool) (process_sample : E → ℝ → ℝ × E) :
    E → List ℝ → ℕ → List ℝ × E × List ℝ
  | e, queue, 0 => ([], e, queue)
  | e, queue, n + 1 =>
    match queue with
    | [] =>
      let r := outputDataFn eqEnabled process_sample e [] n
      (0 :: r.1, r.2)
    | s :: rest =>
      if eqEnabled then
        let p := process_sample e s
        let r := outputDataFn eqEnabled process_sample p.2 rest n
        (p.1 :: r.1, r.2)
      else
        let r := outputDataFn eqEnabled process_sample e rest n
        (s :: r.1, r.2)

/-- Stateful map of an equalizer over a sample sequence: what the enabled
playback path computes on the samples it pops. -/
def eqRunSamples {E : Type} (process_sample : E → ℝ → ℝ × E) :
    E → List ℝ → List ℝ × E
  | e, [] => ([], e)
  | e, s :: rest =>
    let p := process_sample e s
    let r := eqRunSamples process_sample p.2 rest
    (p.1 :: r.1, r.2)

/-! ## Theorems about the parser (claims C1 and C2) -/

/-- C1.  The claim says an unrecognized filter-type token inside a FILTER
line is silently skipped and parsing fails only on malformed numeric
tokens.  The code instead propagates FilterType::from_str's
UnknownFilterType error on every token outside the recognized keyword
set: already the leading keyword token Filter of a filter line (and
likewise the unit tokens Hz and dB) aborts the whole parse.  This theorem
evaluates the embedded parser on a filter line taken verbatim from the
repository's own test test_eq_config_parser, which unwraps the parse and
thus expects success. -/
theorem C1_unknown_token_aborts_parse :
    EqProfile.from_str "Filter 1: ON PK Fc 21 Hz Gain 2.3 dB Q 3.500"
      = Except.error (EqParseError.UnknownFilterType "Filter")
    ∧ FilterType.from_str "Hz"
      = Except.error (EqParseError.UnknownFilterType "Hz")
    ∧ FilterType.from_str "dB"
      = Except.error (EqParseError.UnknownFilterType "dB") :=
  ⟨rfl, rfl, rfl⟩

/-- C2.  The claim says the concrete two-line scenario input parses
successfully to preamp -1.0 and one Peaking band.  On the code, the
PREAMP line is handled, but the FILTER line aborts the parse at its very
first token (Filter is not a recognized keyword and not a filter-type
name), so EqProfile::from_str returns an UnknownFilterType error instead
of a profile. -/
theorem C2_concrete_scenario_fails :
    EqProfile.from_str
        "Preamp: -1.0 dB\nFilter 1: ON PK Fc 100 Hz Gain 3.0 dB Q 1.41\n"
      = Except.error (EqParseError.UnknownFilterType "Filter") := rfl

/-! ## Theorems about engine construction (claims C3 and C10) -/

/-- Unfolding lemma for the from_profile fold: it preserves the sample
rate of the accumulator and appends one freshly compiled band per filter,
in order, regardless of the enabled flag. -/
theorem from_profile_fold (filters : List Filter) :
    ∀ acc : ParametricEq,
      (filters.foldl
        (fun acc band =>
          acc.add_band band.filter_type (band.frequency : ℝ)
            (band.q_factor : ℝ) (band.gain : ℝ)) acc).sample_rate
        = acc.sample_rate
      ∧ (filters.foldl
        (fun acc band =>
          acc.add_band band.filter_type (band.frequency : ℝ)
            (band.q_factor : ℝ) (band.gain : ℝ)) acc).bands
        = acc.bands ++ filters.map (fun band =>
            SimdBiquad.new (BiquadCoeffs.calculate band.filter_type
              (band.frequency : ℝ) (band.q_factor : ℝ) (band.gain : ℝ)
              acc.sample_rate)) := by
  induction filters with
  | nil => intro acc; simp
  | cons band rest ih =>
    intro acc
    have h := ih (acc.add_band band.filter_type (band.frequency : ℝ)
      (band.q_factor : ℝ) (band.gain : ℝ))
    simp only [List.foldl_cons]
    refine ⟨h.1.trans rfl, h.2.trans ?_⟩
    simp [ParametricEq.add_band]

/-- C3 counterexample.  A profile whose single band is disabled (so N = 0
enabled bands, M = 1 disabled) still compiles to an engine with one
filter unit: ParametricEq::from_profile never reads the enabled flag, so
disabled bands are not skipped and the engine does not contain exactly
N units. -/
theorem C3_counterexample :
    (ParametricEq.from_profile
        { preamp_db := 0, filters := [{ Filter.defaultVal with enabled := false }] }
        48000).bands.length = 1
    ∧ List.countP (fun f => f.enabled)
        [{ Filter.defaultVal with enabled := false }] = 0 := by
  constructor
  · have h := from_profile_fold [{ Filter.defaultVal with enabled := false }]
      (ParametricEq.new 48000)
    simp [ParametricEq.from_profile, h.2, ParametricEq.new, ParametricEq.add_band]
  · simp [List.countP, List.countP.go]

/-- C3 amended.  For every profile and sample rate, from_profile compiles
exactly one filter unit per band of the profile — N + M units for N
enabled and M disabled bands — in the profile's original band order, each
from that band's type, frequency, Q and gain at the given sample rate;
the enabled flag is ignored, so disabled bands are included rather than
skipped. -/
theorem C3_from_profile_all_bands (profile : EqProfile) (sample_rate : ℝ) :
    (ParametricEq.from_profile profile sample_rate).bands
      = profile.filters.map (fun band =>
          SimdBiquad.new (BiquadCoeffs.calculate band.filter_type
            (band.frequency : ℝ) (band.q_factor : ℝ) (band.gain : ℝ)
            sample_rate))
    ∧ (ParametricEq.from_profile profile sample_rate).bands.length
        = profile.filters.length
    ∧ (ParametricEq.from_profile profile sample_rate).sample_rate
        = sample_rate := by
  have h := from_profile_fold profile.filters (ParametricEq.new sample_rate)
  have hb : (ParametricEq.from_profile profile sample_rate).bands
      = profile.filters.map (fun band =>
          SimdBiquad.new (BiquadCoeffs.calculate band.filter_type
            (band.frequency : ℝ) (band.q_factor : ℝ) (band.gain : ℝ)
            sample_rate)) := by
    simpa [ParametricEq.from_profile, ParametricEq.new] using h.2
  refine ⟨hb, ?_, ?_⟩
  · rw [hb]; simp
  · simpa [ParametricEq.from_profile, ParametricEq.new] using h.1

/-- C10.  The compiled engine is independent of preamp_db: two profiles
with the same band list and any two preamp values compile to engines
whose process_buffer results agree on every input buffer (from_profile
never reads preamp_db, and no global 10^(preamp/20) gain stage exists in
this engine). -/
theorem C10_engine_ignores_preamp (preamp1 preamp2 : ℚ)
    (filters : List Filter) (sample_rate : ℝ) (data : List ℝ) :
    (ParametricEq.from_profile { preamp_db := preamp1, filters := filters }
        sample_rate).process_buffer data
      = (ParametricEq.from_profile { preamp_db := preamp2, filters := filters }
          sample_rate).process_buffer data := rfl

/-! ## Theorems about the pipeline (claims C7 and C8) -/

/-- The poll loop exits with tick index n exactly when every earlier read
still equals the tag and the read at tick n differs from it. -/
theorem pollLoop_some_iff (tag : ℕ) :
    ∀ (reads : List ℕ) (n : ℕ),
      pollLoop tag reads = some n ↔
        ((∀ i, i < n → reads[i]? = some tag) ∧
         ∃ v, reads[n]? = some v ∧ v ≠ tag) := by
  intro reads
  induction reads with
  | nil => intro n; simp [pollLoop]
  | cons r rs ih =>
    intro n
    by_cases hr : r = tag
    · subst hr
      cases n with
      | zero => simp [pollLoop, Option.map_eq_some']
      | succ m =>
        simp only [pollLoop, if_pos rfl]
        constructor
        · intro h
          obtain ⟨a, ha, hae⟩ := Option.map_eq_some'.mp h
          have ham : a = m := by omega
          rw [ham] at ha
          obtain ⟨h1, v, hv, hvt⟩ := (ih m).mp ha
          refine ⟨?_, v, by simpa using hv, hvt⟩
          intro i hi
          cases i with
          | zero => simp
          | succ j => simpa using h1 j (by omega)
        · rintro ⟨h1, v, hv, hvt⟩
          have hrs := (ih m).mpr
            ⟨fun j hj => by simpa using h1 (j + 1) (by omega),
             v, by simpa using hv, hvt⟩
          exact Option.map_eq_some'.mpr ⟨m, hrs, rfl⟩
    · cases n with
      | zero => simp [pollLoop, if_neg hr, hr]
      | succ m =>
        simp only [pollLoop, if_neg hr]
        constructor
        · intro h; simp at h
        · rintro ⟨h1, -⟩
          have h0 := h1 0 (by omega)
          simp at h0
          exact absurd h0 hr

/-- The poll loop is still running (no exit observed) exactly when every
read observed so far equals the tag: nothing else exits the loop. -/
theorem pollLoop_none_iff (tag : ℕ) :
    ∀ reads : List ℕ,
      pollLoop tag reads = none ↔ ∀ (i v : ℕ), reads[i]? = some v → v = tag := by
  intro reads
  induction reads with
  | nil => simp [pollLoop]
  | cons r rs ih =>
    by_cases hr : r = tag
    · subst hr
      simp only [pollLoop, eq_self_iff_true, if_true, Option.map_eq_none']
      rw [ih]
      constructor
      · intro h i v hv
        cases i with
        | zero => simp at hv; omega
        | succ j => exact h j v (by simpa using hv)
      · intro h j v hv
        exact h (j + 1) v (by simpa using hv)
    · simp only [pollLoop, if_neg hr]
      constructor
      · intro h; simp at h
      · intro h
        have h0 := h 0 r (by simp)
        exact absurd h0 hr

/-- C7.  The poll loop of run (src/run.rs), tagged with the instance_id
value loaded before the loop, keeps looping as long as every polled read
of the shared counter equals the tag, and breaks (after which run returns
Ok) precisely at the first poll tick whose read differs from the tag; a
tick-index n exit requires all earlier reads to equal the tag and the
read at n to differ, and no exit happens while all reads equal the tag —
the counter mismatch is the sole exit condition of the loop. -/
theorem C7_poll_loop_cancellation (tag : ℕ) (reads : List ℕ) :
    (∀ n, pollLoop tag reads = some n ↔
        ((∀ i, i < n → reads[i]? = some tag) ∧
         ∃ v, reads[n]? = some v ∧ v ≠ tag))
    ∧ (pollLoop tag reads = none ↔ ∀ (i v : ℕ), reads[i]? = some v → v = tag) :=
  ⟨fun n => pollLoop_some_iff tag reads n, pollLoop_none_iff tag reads⟩

/-- Stateful equalizer runs preserve sequence length. -/
theorem eqRunSamples_fst_length {E : Type} (f : E → ℝ → ℝ × E) :
    ∀ (xs : List ℝ) (e : E), ((eqRunSamples f e xs).1).length = xs.length := by
  intro xs
  induction xs with
  | nil => intro e; simp [eqRunSamples]
  | cons x rest ih => intro e; simp [eqRunSamples, ih]

/-- The written samples of one playback callback invocation: the popped
prefix of the queued samples, equalized exactly when the flag is set,
padded with silence for every slot the empty buffer could not serve. -/
theorem outputDataFn_fst {E : Type} (eqEnabled : Bool)
    (process_sample : E → ℝ → ℝ × E) :
    ∀ (n : ℕ) (e : E) (queue : List ℝ),
      (outputDataFn eqEnabled process_sample e queue n).1
        = (if eqEnabled then (eqRunSamples process_sample e (queue.take n)).1
           else queue.take n) ++ List.replicate (n - queue.length) 0 := by
  intro n
  induction n with
  | zero => intro e queue; cases eqEnabled <;> simp [outputDataFn, eqRunSamples]
  | succ m ih =>
    intro e queue
    cases queue with
    | nil =>
      cases eqEnabled <;>
        simp [outputDataFn, eqRunSamples, ih, List.replicate_succ]
    | cons s rest =>
      cases eqEnabled <;>
        simp [outputDataFn, eqRunSamples, ih, Nat.succ_sub_succ]

/-- C8.  The playback callback of run (src/run.rs) writes into every one
of its n output slots: when a queued sample is available it writes the
popped sample run through the equalizer if the enable flag (loaded once
per callback) is set, and the popped sample unmodified if the flag is
unset; when the ring buffer is empty the pop yields the defined no-sample
result and the callback writes silence (0.0) — every slot is written and
nothing blocks, as the output length is always exactly n. -/
theorem C8_playback_callback {E : Type} (eqEnabled : Bool)
    (process_sample : E → ℝ → ℝ × E) (e : E) (queue : List ℝ) (n : ℕ) :
    (outputDataFn eqEnabled process_sample e queue n).1
      = (if eqEnabled then (eqRunSamples process_sample e (queue.take n)).1
         else queue.take n) ++ List.replicate (n - queue.length) 0
    ∧ (outputDataFn eqEnabled process_sample e queue n).1.length = n := by
  refine ⟨outputDataFn_fst eqEnabled process_sample n e queue, ?_⟩
  rw [outputDataFn_fst eqEnabled process_sample n e queue]
  cases eqEnabled <;> simp [eqRunSamples_fst_length] <;> omega

/-! ## Theorems about the vectorized kernel (claim C6) -/

/-- One process_quad step on a uniform-lane biquad with a uniform input
quad is exactly one scalar difference-equation step, broadcast. -/
theorem splat_process_quad (c : BiquadCoeffs) (st : BiquadState) (x : ℝ) :
    (splatBiquad c st).process_quad (vdupq_n_f32 x)
      = (vdupq_n_f32 (scalarStep c st x).1,
         splatBiquad c (scalarStep c st x).2) := rfl

/-- Quad-sequence processing on uniform lanes is broadcast scalar
filtering: the uniform-lane invariant is preserved step by step. -/
theorem splat_simdRun (c : BiquadCoeffs) :
    ∀ (xs : List ℝ) (st : BiquadState),
      simdRun (splatBiquad c st) (xs.map vdupq_n_f32)
        = ((scalarRun c st xs).1.map vdupq_n_f32,
           splatBiquad c (scalarRun c st xs).2) := by
  intro xs
  induction xs with
  | nil => intro st; simp [simdRun, scalarRun]
  | cons x rest ih =>
    intro st
    simp only [List.map_cons, simdRun, scalarRun, splat_process_quad, ih]

/-- C6.  SimdBiquad::process_quad computes each lane independently by the
Direct Form I difference equation on that lane's own history and then
shifts that lane's history (first conjunct, for every lane index); as a
consequence, when all four lanes carry the same sample sequence, starting
from a freshly constructed band, every lane's output sequence equals the
scalar difference-equation output for that sequence (second conjunct). -/
theorem C6_lanewise_and_scalar_equivalence :
    (∀ (b : SimdBiquad) (v : Float32x4) (k : Fin 4),
      ((b.process_quad v).1).lane k
        = b.b0.lane k * v.lane k + b.b1.lane k * b.x1.lane k
          + b.b2.lane k * b.x2.lane k - b.a1.lane k * b.y1.lane k
          - b.a2.lane k * b.y2.lane k
      ∧ ((b.process_quad v).2).x1.lane k = v.lane k
      ∧ ((b.process_quad v).2).x2.lane k = b.x1.lane k
      ∧ ((b.process_quad v).2).y1.lane k = ((b.process_quad v).1).lane k
      ∧ ((b.process_quad v).2).y2.lane k = b.y1.lane k)
    ∧ ∀ (c : BiquadCoeffs) (xs : List ℝ),
        (simdRun (SimdBiquad.new c) (xs.map vdupq_n_f32)).1
          = (scalarRun c ⟨0, 0, 0, 0⟩ xs).1.map vdupq_n_f32 := by
  constructor
  · intro b v k
    fin_cases k <;> exact ⟨rfl, rfl, rfl, rfl, rfl⟩
  · intro c xs
    have hnew : SimdBiquad.new c = splatBiquad c ⟨0, 0, 0, 0⟩ := rfl
    rw [hnew, splat_simdRun c xs ⟨0, 0, 0, 0⟩]

/-! ## Theorems about buffer processing (claim C4) -/

/-- The chunk loop returns short buffers (fewer than four samples)
untouched, with the band states unchanged. -/
theorem processChunks_short (bs : List SimdBiquad) (data : List ℝ)
    (hd : data.length < 4) : processChunks bs data = (data, bs) := by
  rcases data with - | ⟨a, - | ⟨b, - | ⟨c, - | ⟨d, t⟩⟩⟩⟩
  · rfl
  · rfl
  · rfl
  · rfl
  · simp only [List.length_cons] at hd; omega

/-- Fuel-indexed characterization of the chunk loop of process_buffer: it
preserves the buffer length, leaves every sample past the last full group
of four exactly as it was, and computes the aligned prefix as the
processing of the aligned prefix alone. -/
theorem processChunks_spec :
    ∀ (fuel : ℕ) (bs : List SimdBiquad) (data : List ℝ), data.length ≤ fuel →
      (processChunks bs data).1.length = data.length
      ∧ (processChunks bs data).1.drop (4 * (data.length / 4))
          = data.drop (4 * (data.length / 4))
      ∧ (processChunks bs data).1.take (4 * (data.length / 4))
          = (processChunks bs (data.take (4 * (data.length / 4)))).1 := by
  intro fuel
  induction fuel with
  | zero =>
    intro bs data h
    have hd : data = [] := List.eq_nil_of_length_eq_zero (Nat.le_zero.mp h)
    subst hd
    exact ⟨rfl, rfl, rfl⟩
  | succ n ih =>
    intro bs data h
    rcases data with - | ⟨x0, - | ⟨x1, - | ⟨x2, - | ⟨x3, rest⟩⟩⟩⟩
    · refine ⟨?_, ?_, ?_⟩ <;> simp [processChunks_short]
    · refine ⟨?_, ?_, ?_⟩ <;> simp [processChunks_short]
    · refine ⟨?_, ?_, ?_⟩ <;> simp [processChunks_short]
    · refine ⟨?_, ?_, ?_⟩ <;> simp [processChunks_short]
    · have hlen : rest.length ≤ n := by
        simp only [List.length_cons] at h
        omega
      obtain ⟨ihl, ihd, iht⟩ :=
        ih (processQuadCascade bs ⟨x0, x1, x2, x3⟩).2 rest hlen
      have hstep : processChunks bs (x0 :: x1 :: x2 :: x3 :: rest)
          = ([(processQuadCascade bs ⟨x0, x1, x2, x3⟩).1.lane0,
              (processQuadCascade bs ⟨x0, x1, x2, x3⟩).1.lane1,
              (processQuadCascade bs ⟨x0, x1, x2, x3⟩).1.lane2,
              (processQuadCascade bs ⟨x0, x1, x2, x3⟩).1.lane3]
              ++ (processChunks (processQuadCascade bs ⟨x0, x1, x2, x3⟩).2 rest).1,
             (processChunks (processQuadCascade bs ⟨x0, x1, x2, x3⟩).2 rest).2) := rfl
      have hnum : 4 * ((x0 :: x1 :: x2 :: x3 :: rest).length / 4)
          = 4 + 4 * (rest.length / 4) := by
        simp only [List.length_cons]
        omega
      have h4 : (4 : ℕ) + 4 * (rest.length / 4)
          = ([(processQuadCascade bs ⟨x0, x1, x2, x3⟩).1.lane0,
              (processQuadCascade bs ⟨x0, x1, x2, x3⟩).1.lane1,
              (processQuadCascade bs ⟨x0, x1, x2, x3⟩).1.lane2,
              (processQuadCascade bs ⟨x0, x1, x2, x3⟩).1.lane3] : List ℝ).length
            + 4 * (rest.length / 4) := by simp
      have h5 : (4 : ℕ) + 4 * (rest.length / 4)
          = ([x0, x1, x2, x3] : List ℝ).length + 4 * (rest.length / 4) := by simp
      refine ⟨?_, ?_, ?_⟩
      · rw [hstep]
        simp [ihl]
      · rw [hstep, hnum]
        conv_rhs => rw [show (x0 :: x1 :: x2 :: x3 :: rest)
          = [x0, x1, x2, x3] ++ rest from rfl, h5, List.drop_append]
        conv_lhs => rw [h4, List.drop_append]
        exact ihd
      · rw [hstep, hnum]
        conv_rhs => rw [show (x0 :: x1 :: x2 :: x3 :: rest)
          = [x0, x1, x2, x3] ++ rest from rfl, h5, List.take_append]
        conv_lhs => rw [h4, List.take_append]
        rw [iht]
        rfl

/-- C4 counterexample.  An engine with one gain-two band (b0 = 2, all
other coefficients zero) applied to the five-sample buffer [1,1,1,1,1]
writes [2,2,2,2,1]: the four leading samples go through the cascade, but
the fifth sample is left unmodified, while the scalar difference equation
would have produced 2 for it — so no scalar remainder path exists. -/
theorem C4_counterexample :
    (ParametricEq.process_buffer
        { sample_rate := 48000,
          bands := [splatBiquad { b0 := 2, b1 := 0, b2 := 0, a1 := 0, a2 := 0 }
            ⟨0, 0, 0, 0⟩] }
        [1, 1, 1, 1, 1]).1 = [2, 2, 2, 2, 1]
    ∧ (scalarRun { b0 := 2, b1 := 0, b2 := 0, a1 := 0, a2 := 0 } ⟨0, 0, 0, 0⟩
        [1]).1 = [2]
    ∧ (1 : ℝ) ≠ 2 := by
  refine ⟨?_, ?_, by norm_num⟩
  · norm_num [ParametricEq.process_buffer, processChunks, processQuadCascade,
      SimdBiquad.process_quad, splatBiquad, vdupq_n_f32, vmulq_f32,
      vfmaq_f32, vfmsq_f32]
  · norm_num [scalarRun, scalarStep]

/-- C4 amended.  ParametricEq::process_buffer filters only the leading
groups of four samples (each group run through the band cascade as one
quad); the trailing (length mod 4) samples of a buffer whose length is
not a multiple of 4 are left unmodified — there is no scalar remainder
path.  Formally: the output has the input's length, the output past the
last full quad equals the input there, and the output up to the last full
quad is what processing the aligned prefix alone produces. -/
theorem C4_remainder_left_unmodified (eq : ParametricEq) (data : List ℝ) :
    (eq.process_buffer data).1.length = data.length
    ∧ (eq.process_buffer data).1.drop (4 * (data.length / 4))
        = data.drop (4 * (data.length / 4))
    ∧ (eq.process_buffer data).1.take (4 * (data.length / 4))
        = (eq.process_buffer (data.take (4 * (data.length / 4)))).1 :=
  processChunks_spec data.length eq.bands data le_rfl

/-! ## Theorems about live band updates (claim C9) -/

/-- C9.  For an in-range band index, ParametricEq::update_band replaces
exactly that band's five broadcast coefficient vectors with the freshly
computed coefficients (update_coeffs touches no history field, so the
band's x1/x2/y1/y2 lane histories are preserved unchanged), leaves every
other band untouched, and leaves the engine's sample rate unchanged. -/
theorem C9_update_band_preserves_history (eq : ParametricEq) (i : ℕ)
    (ft : FilterType) (freq q gain_db : ℝ) (band : SimdBiquad)
    (h : eq.bands[i]? = some band) :
    (eq.update_band i ft freq q gain_db).bands[i]?
        = some (band.update_coeffs
            (BiquadCoeffs.calculate ft freq q gain_db eq.sample_rate))
    ∧ (∀ c : BiquadCoeffs,
        (band.update_coeffs c).x1 = band.x1
        ∧ (band.update_coeffs c).x2 = band.x2
        ∧ (band.update_coeffs c).y1 = band.y1
        ∧ (band.update_coeffs c).y2 = band.y2
        ∧ (band.update_coeffs c).b0 = vdupq_n_f32 c.b0
        ∧ (band.update_coeffs c).b1 = vdupq_n_f32 c.b1
        ∧ (band.update_coeffs c).b2 = vdupq_n_f32 c.b2
        ∧ (band.update_coeffs c).a1 = vdupq_n_f32 c.a1
        ∧ (band.update_coeffs c).a2 = vdupq_n_f32 c.a2)
    ∧ (∀ j, j ≠ i →
        (eq.update_band i ft freq q gain_db).bands[j]? = eq.bands[j]?)
    ∧ (eq.update_band i ft freq q gain_db).sample_rate = eq.sample_rate := by
  have hg : eq.bands.get? i = some band := by
    rwa [List.get?_eq_getElem?]
  have hlt : i < eq.bands.length := by
    by_contra hc
    rw [List.get?_eq_none.mpr (Nat.le_of_not_lt hc)] at hg
    exact Option.noConfusion hg
  have hu : eq.update_band i ft freq q gain_db
      = { eq with bands := eq.bands.set i (band.update_coeffs
          (BiquadCoeffs.calculate ft freq q gain_db eq.sample_rate)) } := by
    simp only [ParametricEq.update_band, hg]
  refine ⟨?_, ?_, ?_, ?_⟩
  · rw [hu]
    exact List.getElem?_set_eq_of_lt _ hlt
  · intro c
    exact ⟨rfl, rfl, rfl, rfl, rfl, rfl, rfl, rfl, rfl⟩
  · intro j hj
    rw [hu]
    exact List.getElem?_set_ne (fun he => hj he.symm)
  · rw [hu]

/-- Witness for C9 at a concrete one-band engine: updating band 0
replaces its coefficients (history untouched) exactly as the theorem
states. -/
theorem C9_update_band_witness :
    (ParametricEq.mk 48000
        [splatBiquad { b0 := 1, b1 := 0, b2 := 0, a1 := 0, a2 := 0 }
          ⟨5, 6, 7, 8⟩]).bands[0]?
      = some (splatBiquad { b0 := 1, b1 := 0, b2 := 0, a1 := 0, a2 := 0 }
          ⟨5, 6, 7, 8⟩)
    ∧ ((ParametricEq.mk 48000
        [splatBiquad { b0 := 1, b1 := 0, b2 := 0, a1 := 0, a2 := 0 }
          ⟨5, 6, 7, 8⟩]).update_band 0 FilterType.Peaking 100 1 0).bands[0]?
      = some ((splatBiquad { b0 := 1, b1 := 0, b2 := 0, a1 := 0, a2 := 0 }
          ⟨5, 6, 7, 8⟩).update_coeffs
          (BiquadCoeffs.calculate FilterType.Peaking 100 1 0 48000)) :=
  ⟨rfl,
   (C9_update_band_preserves_history
      (ParametricEq.mk 48000
        [splatBiquad { b0 := 1, b1 := 0, b2 := 0, a1 := 0, a2 := 0 }
          ⟨5, 6, 7, 8⟩]) 0 FilterType.Peaking 100 1 0
      (splatBiquad { b0 := 1, b1 := 0, b2 := 0, a1 := 0, a2 := 0 }
        ⟨5, 6, 7, 8⟩) rfl).1⟩

/-! ## Theorems about the coefficient engine (claim C5) -/

/-- C5 counterexample.  At filter type Peaking, frequency 3, Q = 1/2,
gain 0 and sample rate 4 (a frequency beyond the sample rate's half, so
outside the guard the spec demands of callers), the raw a0 is exactly
1 + sin(3π/2)/(2·(1/2))/10^0 = 0: the normalization divides by zero, the
engine returns all-zero coefficients, and the normalized a0 (a0 divided
by itself) is 0, not 1 — refuting the claim's unrestricted quantification
over every frequency and sample rate. -/
theorem C5_counterexample :
    BiquadCoeffs.calculate FilterType.Peaking 3 (1 / 2) 0 4
      = { b0 := 0, b1 := 0, b2 := 0, a1 := 0, a2 := 0 }
    ∧ (1 + Real.sin (2 * Real.pi * 3 / 4) / (2 * (1 / 2)) / Real.rpow 10 (0 / 40)) = 0
    ∧ ¬ ((1 + Real.sin (2 * Real.pi * 3 / 4) / (2 * (1 / 2)) / Real.rpow 10 (0 / 40))
        / (1 + Real.sin (2 * Real.pi * 3 / 4) / (2 * (1 / 2)) / Real.rpow 10 (0 / 40))
        = 1) := by
  have hs : Real.sin (2 * Real.pi * 3 / 4) = -1 := by
    rw [show (2 * Real.pi * 3 / 4 : ℝ) = Real.pi + Real.pi / 2 by ring]
    rw [Real.sin_add, Real.sin_pi, Real.cos_pi, Real.sin_pi_div_two,
      Real.cos_pi_div_two]
    ring
  have ha : (1 + Real.sin (2 * Real.pi * 3 / 4) / (2 * (1 / 2))
      / Real.rpow 10 (0 / 40)) = 0 := by
    have hr : Real.rpow 10 0 = 1 := Real.rpow_zero 10
    rw [hs, show ((0 : ℝ) / 40) = 0 by norm_num, hr]
    norm_num
  refine ⟨?_, ha, ?_⟩
  · simp only [BiquadCoeffs.calculate]
    rw [ha]
    norm_num
  · rw [ha]
    norm_num

/-- C5 amended.  For every filter type, with Q > 0 and a frequency in
the valid range 0 < frequency < sampleRate/2 at a positive sample rate
(the caller guard the spec itself demands in §4.2), BiquadCoeffs::calculate
returns exactly that type's raw RBJ Audio EQ Cookbook coefficients divided
by that type's raw a0, the raw a0 is nonzero, and hence the normalized
a0 — a0 divided by itself — equals 1. -/
theorem C5_all_types_normalization
    (freq q gain_db sample_rate sinw cosw alpha A beta a0p a0ls a0hs a0lp : ℝ)
    (hq : 0 < q) (hf : 0 < freq) (hnyq : freq < sample_rate / 2)
    (hsr : 0 < sample_rate)
    (hsin : sinw = Real.sin (2 * Real.pi * freq / sample_rate))
    (hcos : cosw = Real.cos (2 * Real.pi * freq / sample_rate))
    (halpha : alpha = sinw / (2 * q))
    (hA : A = Real.rpow 10 (gain_db / 40))
    (hbeta : beta = 2 * Real.sqrt A * alpha)
    (ha0p : a0p = 1 + alpha / A)
    (ha0ls : a0ls = A + 1 + (A - 1) * cosw + beta)
    (ha0hs : a0hs = A + 1 - (A - 1) * cosw + beta)
    (ha0lp : a0lp = 1 + alpha) :
    (BiquadCoeffs.calculate FilterType.Peaking freq q gain_db sample_rate
        = { b0 := (1 + alpha * A) / a0p
            b1 := -2 * cosw / a0p
            b2 := (1 - alpha * A) / a0p
            a1 := -2 * cosw / a0p
            a2 := (1 - alpha / A) / a0p }
      ∧ a0p ≠ 0 ∧ a0p / a0p = 1)
    ∧ (BiquadCoeffs.calculate FilterType.LowShelf freq q gain_db sample_rate
        = { b0 := A * (A + 1 - (A - 1) * cosw + beta) / a0ls
            b1 := 2 * A * (A - 1 - (A + 1) * cosw) / a0ls
            b2 := A * (A + 1 - (A - 1) * cosw - beta) / a0ls
            a1 := -2 * (A - 1 + (A + 1) * cosw) / a0ls
            a2 := (A + 1 + (A - 1) * cosw - beta) / a0ls }
      ∧ a0ls ≠ 0 ∧ a0ls / a0ls = 1)
    ∧ (BiquadCoeffs.calculate FilterType.HighShelf freq q gain_db sample_rate
        = { b0 := A * (A + 1 + (A - 1) * cosw + beta) / a0hs
            b1 := -2 * A * (A - 1 + (A + 1) * cosw) / a0hs
            b2 := A * (A + 1 + (A - 1) * cosw - beta) / a0hs
            a1 := 2 * (A - 1 - (A + 1) * cosw) / a0hs
            a2 := (A + 1 - (A - 1) * cosw - beta) / a0hs }
      ∧ a0hs ≠ 0 ∧ a0hs / a0hs = 1)
    ∧ (BiquadCoeffs.calculate FilterType.LowPass freq q gain_db sample_rate
        = { b0 := (1 - cosw) / 2 / a0lp
            b1 := (1 - cosw) / a0lp
            b2 := (1 - cosw) / 2 / a0lp
            a1 := -2 * cosw / a0lp
            a2 := (1 - alpha) / a0lp }
      ∧ a0lp ≠ 0 ∧ a0lp / a0lp = 1)
    ∧ (BiquadCoeffs.calculate FilterType.HighPass freq q gain_db sample_rate
        = { b0 := (1 + cosw) / 2 / a0lp
            b1 := -(1 + cosw) / a0lp
            b2 := (1 + cosw) / 2 / a0lp
            a1 := -2 * cosw / a0lp
            a2 := (1 - alpha) / a0lp }
      ∧ a0lp ≠ 0 ∧ a0lp / a0lp = 1) := by
  have hsinpos : 0 < sinw := by
    rw [hsin]
    have homega2 : 2 * Real.pi * freq / sample_rate < Real.pi := by
      rw [div_lt_iff₀ hsr]
      have h2f : 2 * freq < sample_rate := by linarith
      have hpi := Real.pi_pos
      nlinarith
    have homega1 : 0 < 2 * Real.pi * freq / sample_rate := by
      have hpi := Real.pi_pos
      positivity
    exact Real.sin_pos_of_pos_of_lt_pi homega1 homega2
  have hApos : 0 < A := by
    rw [hA]; exact Real.rpow_pos_of_pos (by norm_num) _
  have halphapos : 0 < alpha := by
    rw [halpha]; exact div_pos hsinpos (by linarith)
  have hbetapos : 0 < beta := by
    rw [hbeta]
    have hsq := Real.sqrt_pos.mpr hApos
    positivity
  have hc1 : cosw ≤ 1 := by rw [hcos]; exact Real.cos_le_one _
  have hc2 : -1 ≤ cosw := by rw [hcos]; exact Real.neg_one_le_cos _
  have ha0p_pos : 0 < a0p := by
    rw [ha0p]
    have hdiv := div_pos halphapos hApos
    linarith
  have ha0ls_pos : 0 < a0ls := by
    rw [ha0ls]
    nlinarith [mul_nonneg hApos.le (show (0 : ℝ) ≤ 1 + cosw by linarith)]
  have ha0hs_pos : 0 < a0hs := by
    rw [ha0hs]
    nlinarith [mul_nonneg hApos.le (show (0 : ℝ) ≤ 1 - cosw by linarith)]
  have ha0lp_pos : 0 < a0lp := by
    rw [ha0lp]; linarith
  subst ha0p ha0ls ha0hs ha0lp hbeta halpha hA hcos hsin
  refine ⟨⟨?_, ne_of_gt ha0p_pos, div_self (ne_of_gt ha0p_pos)⟩,
          ⟨?_, ne_of_gt ha0ls_pos, div_self (ne_of_gt ha0ls_pos)⟩,
          ⟨?_, ne_of_gt ha0hs_pos, div_self (ne_of_gt ha0hs_pos)⟩,
          ⟨?_, ne_of_gt ha0lp_pos, div_self (ne_of_gt ha0lp_pos)⟩,
          ⟨?_, ne_of_gt ha0lp_pos, div_self (ne_of_gt ha0lp_pos)⟩⟩
  all_goals simp only [BiquadCoeffs.calculate, mul_one_div]

/-- Witness for C5 at the concrete valid band frequency 1, Q = 1/2,
gain 0, sample rate 4: the guards hold, and (shown here for the Peaking
component of the theorem) the coefficients are the RBJ values divided by
a nonzero a0 whose normalization is 1. -/
theorem C5_normalization_witness :
    ((0 : ℝ) < 1 / 2 ∧ (0 : ℝ) < 1 ∧ (1 : ℝ) < 4 / 2 ∧ (0 : ℝ) < 4)
    ∧ (BiquadCoeffs.calculate FilterType.Peaking 1 (1 / 2) 0 4
        = { b0 := (1 + Real.sin (2 * Real.pi * 1 / 4) / (2 * (1 / 2))
                * Real.rpow 10 (0 / 40))
              / (1 + Real.sin (2 * Real.pi * 1 / 4) / (2 * (1 / 2))
                / Real.rpow 10 (0 / 40)),
            b1 := -2 * Real.cos (2 * Real.pi * 1 / 4)
              / (1 + Real.sin (2 * Real.pi * 1 / 4) / (2 * (1 / 2))
                / Real.rpow 10 (0 / 40)),
            b2 := (1 - Real.sin (2 * Real.pi * 1 / 4) / (2 * (1 / 2))
                * Real.rpow 10 (0 / 40))
              / (1 + Real.sin (2 * Real.pi * 1 / 4) / (2 * (1 / 2))
                / Real.rpow 10 (0 / 40)),
            a1 := -2 * Real.cos (2 * Real.pi * 1 / 4)
              / (1 + Real.sin (2 * Real.pi * 1 / 4) / (2 * (1 / 2))
                / Real.rpow 10 (0 / 40)),
            a2 := (1 - Real.sin (2 * Real.pi * 1 / 4) / (2 * (1 / 2))
                / Real.rpow 10 (0 / 40))
              / (1 + Real.sin (2 * Real.pi * 1 / 4) / (2 * (1 / 2))
                / Real.rpow 10 (0 / 40)) }
        ∧ (1 + Real.sin (2 * Real.pi * 1 / 4) / (2 * (1 / 2))
            / Real.rpow 10 (0 / 40)) ≠ 0
        ∧ (1 + Real.sin (2 * Real.pi * 1 / 4) / (2 * (1 / 2))
            / Real.rpow 10 (0 / 40))
          / (1 + Real.sin (2 * Real.pi * 1 / 4) / (2 * (1 / 2))
            / Real.rpow 10 (0 / 40)) = 1) :=
  ⟨⟨by norm_num, by norm_num, by norm_num, by norm_num⟩,
   (C5_all_types_normalization 1 (1 / 2) 0 4 _ _ _ _ _ _ _ _ _
     (by norm_num) (by norm_num) (by norm_num) (by norm_num)
     rfl rfl rfl rfl rfl rfl rfl rfl rfl).1⟩

end EqLayer
